import Mathlib

/-!
Verification of the realtime audio duplex pipeline and the media generation
service of a browser front-end application.

The embedding below translates the relevant parts of the source into Lean:

* the inbound playback scheduler of `src/components/LiveView.tsx`
  (the `onmessage` callback, lines 88-110, and the clock reset at line 70);
* the session / capture lifecycle of the same component
  (`startAudioStream`, `connect`, `disconnect`), lines 16-139;
* the PCM16 sample encoder of `src/utils/audioUtils` (file absent from the
  sources; modelled from the specification);
* the video generation polling loop of the service module
  (`generateVideo`, `src/unnamed/part_000`, lines 88-133).

Device times and buffer durations are modelled as rationals, counters as
naturals; fallible steps return `Option` / `Except`.  Definitions come
first, theorems follow.
-/

namespace AudioPipeline

/-! ### Inbound playback scheduler

`onmessage` (LiveView.tsx lines 88-110).  An inbound chunk carries the
output device's current time at the moment it is processed (`ctx.currentTime`)
and the decode outcome of its payload: `some d` when `atob` plus
`decodeAudioData` succeed and yield a buffer of duration `d`, `none` when the
payload is absent, malformed or undecodable (in the source an exception thrown
before line 106 aborts the callback before any clock update). -/

structure InChunk where
  now : ℚ
  decode : Option ℚ

/-- The body of the `onmessage` callback, LiveView.tsx lines 88-110:
on a successful decode it computes `start = max(now, nextStartTime)`
(line 106), schedules the source at `start` (line 107, the second component
of the result), and sets `nextStartTime := start + buffer.duration`
(line 108); otherwise it leaves the clock alone and schedules nothing. -/
def onmessage (next : ℚ) (c : InChunk) : ℚ × Option ℚ :=
  match c.decode with
  | none => (next, none)
  | some d =>
    let start := max c.now next
    (start + d, some start)

/-- The clock update alone. -/
def processChunk (next : ℚ) (c : InChunk) : ℚ :=
  (onmessage next c).1

/-- `nextStartTimeRef.current = 0`, LiveView.tsx line 70. -/
def initialNextStartTime : ℚ := 0

/-- Value of `nextStartTime` after a sequence of inbound chunks. -/
def nextAfter (next : ℚ) (cs : List InChunk) : ℚ :=
  cs.foldl processChunk next

/-- Duration carried by a chunk (`0` for a chunk that does not decode). -/
def chunkDur (c : InChunk) : ℚ :=
  c.decode.getD 0

end AudioPipeline

namespace Lifecycle

/-! ### Session / capture lifecycle

State machine extracted from LiveView.tsx.  The component's state is the
`status` string, the `isConnected` flag, and the three refs
(`audioContextRef`, `nextStartTimeRef`, `sessionPromiseRef`), together with
the capture resources created by `startAudioStream` (microphone stream,
input `AudioContext`, processor graph).  `startAudioStream` builds a cleanup
closure (lines 54-59) that would stop the stream's tracks and close the input
context, but its caller (line 86) discards the returned closure, so no event
can decrement `micStreams` or `inputCtxOpen`.  Resources replaced without
being released are tracked in the `leaked*` counters. -/

inductive ConnStatus where
  | disconnected
  | connecting
  | live
  | errorState
  | failedToConnect
deriving DecidableEq

inductive LVEvent where
  /-- a call to `connect()` (lines 62-128) -/
  | connectClick
  /-- the `onopen` callback of the pending session (lines 82-87) -/
  | opened
  /-- the `onclose` callback (lines 111-114) -/
  | closed
  /-- the `onerror` callback (lines 115-119) -/
  | errored
  /-- a call to `disconnect()` (lines 130-139) -/
  | disconnectClick
  /-- one `onaudioprocess` firing of the capture processor (lines 36-49) -/
  | frameTick
deriving DecidableEq

structure LVState where
  status : ConnStatus
  isConnected : Bool
  /-- microphone streams acquired by `getUserMedia` whose tracks have not
  been stopped -/
  micStreams : ℕ
  /-- input `AudioContext`s created by `startAudioStream` still open -/
  inputCtxOpen : ℕ
  /-- `audioContextRef.current` is non-null -/
  outRefSet : Bool
  /-- the output context currently referenced is open -/
  outOpen : Bool
  /-- prior output contexts left open when the ref was overwritten -/
  leakedOutOpen : ℕ
  /-- `sessionPromiseRef.current` is non-null -/
  sessionRefSet : Bool
  /-- the session attempt currently referenced has been started and not
  closed -/
  currentSessionActive : Bool
  /-- prior session attempts left unclosed when the ref was overwritten -/
  leakedSessionsActive : ℕ
  nextStartTime : ℚ
  /-- frames produced by the capture processor so far -/
  framesCaptured : ℕ

def initState : LVState :=
  ⟨ConnStatus.disconnected, false, 0, 0, false, false, 0, false, false, 0, 0, 0⟩

/-- Sessions started and not yet closed (live connections plus in-flight
connection attempts). -/
def activeSessions (s : LVState) : ℕ :=
  s.leakedSessionsActive + (if s.currentSessionActive then 1 else 0)

/-- One event of the LiveView component, exactly as the source handles it:

* `connectClick` (lines 62-128): sets status to Connecting, creates a fresh
  output context and stores it in the ref (the previous one, if open, is
  leaked), resets `nextStartTime` to 0 (line 70), starts a new session and
  overwrites `sessionPromiseRef` (line 122) without closing the previous
  session.  No guard checks the current state.
* `opened` (lines 82-87): sets status Live, `isConnected` true, and runs
  `startAudioStream`, acquiring a microphone stream and opening an input
  context; the returned cleanup closure is discarded.
* `closed` / `errored` (lines 111-119): update status and `isConnected`
  only; no resource is released.
* `disconnectClick` (lines 130-139): closes the referenced session and the
  referenced output context, then sets `isConnected` false and status
  Disconnected.  The microphone stream and input context are untouched.
* `frameTick` (lines 36-49): if a capture processor exists, one frame is
  produced, encoded and submitted to the (already resolved) session promise;
  nothing is ever buffered for later. -/
def step (s : LVState) : LVEvent → LVState
  | LVEvent.connectClick =>
    { s with
      status := ConnStatus.connecting
      nextStartTime := 0
      leakedOutOpen := s.leakedOutOpen + (if s.outOpen then 1 else 0)
      outRefSet := true
      outOpen := true
      leakedSessionsActive :=
        s.leakedSessionsActive + (if s.currentSessionActive then 1 else 0)
      sessionRefSet := true
      currentSessionActive := true }
  | LVEvent.opened =>
    if s.sessionRefSet then
      { s with
        status := ConnStatus.live
        isConnected := true
        micStreams := s.micStreams + 1
        inputCtxOpen := s.inputCtxOpen + 1 }
    else s
  | LVEvent.closed =>
    { s with status := ConnStatus.disconnected, isConnected := false }
  | LVEvent.errored =>
    { s with status := ConnStatus.errorState, isConnected := false }
  | LVEvent.disconnectClick =>
    { s with
      currentSessionActive :=
        if s.sessionRefSet then false else s.currentSessionActive
      outOpen := if s.outRefSet then false else s.outOpen
      isConnected := false
      status := ConnStatus.disconnected }
  | LVEvent.frameTick =>
    if 0 < s.micStreams then
      { s with framesCaptured := s.framesCaptured + 1 }
    else s

/-- Run a sequence of events from a state. -/
def runEvents (s : LVState) (evs : List LVEvent) : LVState :=
  evs.foldl step s

end Lifecycle

namespace PCM

/-! ### Float32 to PCM16 conversion

`float32ToPCM16` lives in `src/utils/audioUtils`, which is not among the
sources (only its caller, LiveView.tsx line 38, is). -/

/-- Modelled from the spec: the per-sample float32-to-PCM16 conversion of
the missing `src/utils/audioUtils.float32ToPCM16` — linear scaling with
saturation at the range boundaries: values `≥ 1.0` map to the maximum
positive 16-bit value `32767`, values `≤ -1.0` map to the minimum negative
value `-32768`, and values in between map via `round(v * 32767)`.
Samples are modelled as rationals. -/
def pcm16OfSample (v : ℚ) : ℤ :=
  if 1 ≤ v then 32767
  else if v ≤ -1 then -32768
  else round (v * 32767)

/-- Modelled from the spec: the frame-level encoder applies the sample
conversion to every sample of a captured frame. -/
def float32ToPCM16 (frame : List ℚ) : List ℤ :=
  frame.map pcm16OfSample

end PCM

namespace VideoGen

/-! ### Video generation polling loop

`generateVideo`, `src/unnamed/part_000` lines 88-133.  The long-running
operation is modelled by its observable fields: the `done` flag and the
flattening of the optional chain
`operation.response?.generatedVideos?.[0]?.video?.uri` into an
`Option String` (`none` when any link of the chain is absent). -/

structure VideoOp where
  done : Bool
  link : Option String
deriving DecidableEq

/-- Externally visible actions of `generateVideo`. -/
inductive VAct where
  /-- `setTimeout(resolve, ms)` -/
  | wait (ms : ℕ)
  /-- one `ai.operations.getVideosOperation` call -/
  | pollOp
  /-- the `fetch(downloadLink + key)` of the binary result -/
  | fetchBinary (uri : String)
deriving DecidableEq

/-- The polling loop, lines 121-124: while the operation is not done, wait
5000 ms then poll it again.  The successive snapshots returned by the remote
service are supplied as a list; `none` means the loop did not reach a done
snapshot within the supplied ones. -/
def pollActs : VideoOp → List VideoOp → Option (List VAct × VideoOp)
  | op, rest =>
    if op.done then some ([], op)
    else
      match rest with
      | [] => none
      | o :: rest' =>
        (pollActs o rest').map fun p =>
          (VAct.wait 5000 :: VAct.pollOp :: p.1, p.2)

/-- `n` iterations of the loop body: wait exactly 5000 ms, then poll. -/
def pollPattern : ℕ → List VAct
  | 0 => []
  | n + 1 => VAct.wait 5000 :: VAct.pollOp :: pollPattern n

/-- JavaScript falsiness of the `downloadLink` value (line 127):
`undefined` and the empty string are both falsy. -/
def linkFalsy : Option String → Bool
  | none => true
  | some s => s == ""

/-- `URL.createObjectURL` applied to the fetched bytes, abstracted as a
tagged copy of the source URI. -/
def createObjectURL (uri : String) : String :=
  "blob:" ++ uri

/-- Lines 126-132 after the loop: `if (!downloadLink) throw new
Error("Video generation failed")`, otherwise fetch the bytes and return an
object URL for them. -/
def finishVideo (link : Option String) : Except String String :=
  if linkFalsy link then Except.error "Video generation failed"
  else Except.ok (createObjectURL (link.getD ""))

/-- The fetch action performed on the non-thrown path (line 130). -/
def fetchActs : Option String → List VAct
  | none => []
  | some s => if s = "" then [] else [VAct.fetchBinary s]

/-- `generateVideo` after the operation has been started: its action trace
and its result (`Except.error` models the thrown `Error`). -/
def generateVideoRun (op0 : VideoOp) (polls : List VideoOp) :
    Option (List VAct × Except String String) :=
  (pollActs op0 polls).map fun p =>
    (p.1 ++ fetchActs p.2.link, finishVideo p.2.link)

end VideoGen

namespace AudioPipeline

/-! ### Theorems about the playback scheduler -/

theorem processChunk_le (next : ℚ) (c : InChunk) (h : 0 ≤ chunkDur c) :
    next ≤ processChunk next c := by
  cases hc : c.decode with
  | none => simp [processChunk, onmessage, hc]
  | some d =>
    have hd : 0 ≤ d := by simpa [chunkDur, hc] using h
    simp only [processChunk, onmessage, hc]
    calc next ≤ max c.now next := le_max_right _ _
      _ ≤ max c.now next + d := le_add_of_nonneg_right hd

/-- Claim C1: for every sequence of inbound chunks with non-negative
durations, the playback clock `nextStartTime` is monotonically
non-decreasing: its value after chunk `i+1` is at least its value after
chunk `i`, for all arrival timings. -/
theorem nextStartTime_monotone (cs : List InChunk)
    (h : ∀ c ∈ cs, 0 ≤ chunkDur c) (i : ℕ) :
    nextAfter initialNextStartTime (cs.take i) ≤
      nextAfter initialNextStartTime (cs.take (i + 1)) := by
  rw [List.take_succ]
  unfold nextAfter
  rw [List.foldl_append]
  cases hg : cs[i]? with
  | none => simp
  | some c =>
    have hc : c ∈ cs := by
      have := List.getElem?_eq_some.mp hg
      obtain ⟨hlt, hEq⟩ := this
      exact hEq ▸ List.getElem_mem hlt
    simp only [Option.toList_some, List.foldl_cons, List.foldl_nil]
    exact processChunk_le _ c (h c hc)

/-- Witness for C1: a concrete two-chunk sequence. -/
theorem nextStartTime_monotone_witness :
    nextAfter initialNextStartTime
        (([⟨0, some 1⟩, ⟨0, some 2⟩] : List InChunk).take 1) ≤
      nextAfter initialNextStartTime
        (([⟨0, some 1⟩, ⟨0, some 2⟩] : List InChunk).take (1 + 1)) :=
  nextStartTime_monotone [⟨0, some 1⟩, ⟨0, some 2⟩] (by decide) 1

/-- Claim C2: on every successfully decoded inbound chunk the scheduler
computes `start = max(currentDeviceTime, nextStartTime)`, schedules the
buffer at `start`, and immediately sets
`nextStartTime = start + bufferDuration`; a call to `connect()` initializes
`nextStartTime` to 0 at session start. -/
theorem onmessage_schedules_at_max :
    (∀ s : Lifecycle.LVState,
      (Lifecycle.step s Lifecycle.LVEvent.connectClick).nextStartTime = 0) ∧
    ∀ (next : ℚ) (c : InChunk) (d : ℚ), c.decode = some d →
      (onmessage next c).2 = some (max c.now next) ∧
        (onmessage next c).1 = max c.now next + d := by
  refine ⟨fun s => rfl, ?_⟩
  intro next c d hd
  simp [onmessage, hd]

/-- Witness for C2: a concrete decoded chunk arriving at device time 7
against clock value 2. -/
theorem onmessage_schedules_at_max_witness :
    (Lifecycle.step Lifecycle.initState
      Lifecycle.LVEvent.connectClick).nextStartTime = 0 ∧
    ((onmessage 2 ⟨7, some 3⟩).2 = some (max 7 2) ∧
      (onmessage 2 ⟨7, some 3⟩).1 = max 7 2 + 3) :=
  ⟨onmessage_schedules_at_max.1 Lifecycle.initState,
    onmessage_schedules_at_max.2 2 ⟨7, some 3⟩ 3 rfl⟩

/-- Claim C6: a chunk whose payload is malformed or undecodable is dropped
with the clock left exactly unchanged and nothing scheduled; conversely,
only a successfully decoded buffer can move the clock. -/
theorem undecoded_chunk_keeps_clock (next : ℚ) (c : InChunk) :
    (c.decode = none → onmessage next c = (next, none)) ∧
      ((onmessage next c).1 ≠ next → ∃ d, c.decode = some d) := by
  constructor
  · intro h
    simp [onmessage, h]
  · intro h
    cases hc : c.decode with
    | none => exact absurd (by simp [onmessage, hc]) h
    | some d => exact ⟨d, rfl⟩

/-- Witness for C6: a concrete undecodable chunk is dropped, and a concrete
clock change exposes a successful decode. -/
theorem undecoded_chunk_keeps_clock_witness :
    onmessage 5 ⟨3, none⟩ = (5, none) ∧
      ∃ d, (InChunk.mk 2 (some 3)).decode = some d := by
  refine ⟨(undecoded_chunk_keeps_clock 5 ⟨3, none⟩).1 rfl,
    (undecoded_chunk_keeps_clock 0 ⟨2, some 3⟩).2 ?_⟩
  norm_num [onmessage]

end AudioPipeline

namespace Lifecycle

/-! ### Theorems about the session lifecycle -/

/-- Claim C4 (violation exhibited): after `connect`, `onopen`, `disconnect`
the state is Disconnected yet the microphone stream and the input audio
context still exist — `disconnect()` (lines 130-139) closes only the session
and the output context, and the cleanup closure built by `startAudioStream`
(lines 54-59) is discarded at line 86, so capture is never deactivated.
This contradicts "capture resources exist if and only if the connection
state is Live". -/
theorem disconnect_leaves_capture_active :
    (runEvents initState
        [LVEvent.connectClick, LVEvent.opened, LVEvent.disconnectClick]).status
        = ConnStatus.disconnected ∧
    (runEvents initState
        [LVEvent.connectClick, LVEvent.opened, LVEvent.disconnectClick]).micStreams
        = 1 ∧
    (runEvents initState
        [LVEvent.connectClick, LVEvent.opened, LVEvent.disconnectClick]).inputCtxOpen
        = 1 :=
  ⟨rfl, rfl, rfl⟩

/-- Claim C5 (violation exhibited): a second `connect()` issued while the
state is Connecting starts a second live-session attempt: `connect` has no
state guard, so after two clicks two sessions are active concurrently — the
first is overwritten in `sessionPromiseRef` (line 122) without ever being
closed. -/
theorem second_connect_creates_second_session :
    (runEvents initState [LVEvent.connectClick]).status
        = ConnStatus.connecting ∧
    activeSessions (runEvents initState
        [LVEvent.connectClick, LVEvent.connectClick]) = 2 :=
  ⟨rfl, rfl⟩

/-- Claim C7 (violation exhibited): calling `disconnect()` twice after a
live session still leaves the acquired microphone stream (a residual device
handle), because no teardown path ever stops its tracks.  Calling it twice
when no session was ever connected leaves nothing acquired. -/
theorem double_disconnect_residual_handle :
    (runEvents initState
        [LVEvent.connectClick, LVEvent.opened,
          LVEvent.disconnectClick, LVEvent.disconnectClick]).micStreams = 1 ∧
    (runEvents initState
        [LVEvent.connectClick, LVEvent.opened,
          LVEvent.disconnectClick, LVEvent.disconnectClick]).status
        = ConnStatus.disconnected ∧
    (runEvents initState
        [LVEvent.disconnectClick, LVEvent.disconnectClick]).micStreams = 0 :=
  ⟨rfl, rfl, rfl⟩

theorem no_capture_without_open (evs : List LVEvent) :
    ∀ s : LVState, LVEvent.opened ∉ evs → s.micStreams = 0 →
      s.framesCaptured = 0 →
      (runEvents s evs).micStreams = 0 ∧ (runEvents s evs).framesCaptured = 0 := by
  induction evs with
  | nil => exact fun s _ h1 h2 => ⟨h1, h2⟩
  | cons e rest ih =>
    intro s hmem h1 h2
    have hne : e ≠ LVEvent.opened := fun h => hmem (h ▸ List.mem_cons_self e rest)
    have hrest : LVEvent.opened ∉ rest := fun h => hmem (List.mem_cons_of_mem e h)
    have hstep : (step s e).micStreams = 0 ∧ (step s e).framesCaptured = 0 := by
      cases e with
      | connectClick => exact ⟨h1, h2⟩
      | opened => exact absurd rfl hne
      | closed => exact ⟨h1, h2⟩
      | errored => exact ⟨h1, h2⟩
      | disconnectClick => exact ⟨h1, h2⟩
      | frameTick =>
        have hn : ¬ 0 < s.micStreams := by omega
        simp only [step]
        rw [if_neg hn]
        exact ⟨h1, h2⟩
    exact ih (step s e) hrest hstep.1 hstep.2

/-- Claim C8: no frame is captured before the session's handshake has
completed — the capture graph is only built by the `onopen` callback, so in
any event sequence without `onopen` the number of captured (hence of
retained) pre-handshake frames is exactly 0, within any fixed bound. -/
theorem pre_handshake_frames_zero (evs : List LVEvent)
    (h : LVEvent.opened ∉ evs) :
    (runEvents initState evs).framesCaptured = 0 :=
  (no_capture_without_open evs initState h rfl rfl).2

/-- Witness for C8: a connect followed by a processor tick before the
handshake completes captures no frame. -/
theorem pre_handshake_frames_zero_witness :
    (runEvents initState [LVEvent.connectClick, LVEvent.frameTick]).framesCaptured
      = 0 :=
  pre_handshake_frames_zero [LVEvent.connectClick, LVEvent.frameTick] (by decide)

end Lifecycle

namespace PCM

/-! ### Theorems about the PCM16 encoder -/

/-- Claim C3: the float32-to-PCM16 encoder maps `v ≥ 1.0` to `32767`,
`v ≤ -1.0` to `-32768`, values strictly between `-1.0` and `1.0` to
`round(v * 32767)`, and its output always lies in the signed 16-bit range,
so no input can overflow or wrap around. -/
theorem pcm16_saturates (v : ℚ) :
    (1 ≤ v → pcm16OfSample v = 32767) ∧
    (v ≤ -1 → pcm16OfSample v = -32768) ∧
    (-1 < v → v < 1 → pcm16OfSample v = round (v * 32767)) ∧
    -32768 ≤ pcm16OfSample v ∧ pcm16OfSample v ≤ 32767 := by
  unfold pcm16OfSample
  by_cases h1 : 1 ≤ v
  · rw [if_pos h1]
    exact ⟨fun _ => rfl, fun h => absurd h (by intro hc; linarith),
      fun _ h => absurd h (by intro hc; linarith), by norm_num, le_refl _⟩
  · rw [if_neg h1]
    by_cases h2 : v ≤ -1
    · rw [if_pos h2]
      exact ⟨fun h => absurd h h1, fun _ => rfl,
        fun hl _ => absurd hl (by intro hc; linarith), le_refl _, by norm_num⟩
    · rw [if_neg h2]
      push_neg at h1 h2
      have hub : v * 32767 < 32767 := by nlinarith
      have hlb : (-32767 : ℚ) < v * 32767 := by nlinarith
      have hr := round_eq (v * 32767)
      refine ⟨fun h => absurd h (by intro hc; linarith),
        fun h => absurd h (by intro hc; linarith), fun _ _ => rfl, ?_, ?_⟩
      · rw [hr]
        refine Int.le_floor.mpr ?_
        push_cast
        linarith
      · rw [hr]
        have hlt : ⌊v * 32767 + 1 / 2⌋ < 32768 := by
          refine Int.floor_lt.mpr ?_
          push_cast
          linarith
        omega

/-- Witness for C3: concrete samples in each regime. -/
theorem pcm16_saturates_witness :
    pcm16OfSample 2 = 32767 ∧ pcm16OfSample (-2) = -32768 ∧
      pcm16OfSample (1 / 2) = round ((1 / 2 : ℚ) * 32767) :=
  ⟨(pcm16_saturates 2).1 (by norm_num),
    (pcm16_saturates (-2)).2.1 (by norm_num),
    (pcm16_saturates (1 / 2)).2.2.1 (by norm_num) (by norm_num)⟩

end PCM

namespace VideoGen

/-! ### Theorems about the video generation loop -/

theorem pollActs_shape (rest : List VideoOp) :
    ∀ (op : VideoOp) (acts : List VAct) (final : VideoOp),
      pollActs op rest = some (acts, final) →
        final.done = true ∧ ∃ n, acts = pollPattern n := by
  induction rest with
  | nil =>
    intro op acts final h
    rw [pollActs] at h
    by_cases hd : op.done
    · rw [if_pos hd] at h
      have hinj := Option.some.inj h
      have hA : ([] : List VAct) = acts := congrArg Prod.fst hinj
      have hF : op = final := congrArg Prod.snd hinj
      exact ⟨hF ▸ hd, 0, hA.symm⟩
    · rw [if_neg hd] at h
      exact absurd h (by simp)
  | cons o rest' ih =>
    intro op acts final h
    rw [pollActs] at h
    by_cases hd : op.done
    · rw [if_pos hd] at h
      have hinj := Option.some.inj h
      have hA : ([] : List VAct) = acts := congrArg Prod.fst hinj
      have hF : op = final := congrArg Prod.snd hinj
      exact ⟨hF ▸ hd, 0, hA.symm⟩
    · rw [if_neg hd] at h
      rw [Option.map_eq_some'] at h
      obtain ⟨p, hp, hf⟩ := h
      obtain ⟨acts', final'⟩ := p
      obtain ⟨hdone, n, hn⟩ := ih o acts' final' hp
      have h1 : VAct.wait 5000 :: VAct.pollOp :: acts' = acts :=
        congrArg Prod.fst hf
      have h2 : final' = final := congrArg Prod.snd hf
      refine ⟨h2 ▸ hdone, n + 1, ?_⟩
      rw [← h1, hn]
      rfl

theorem pollPattern_no_fetch (n : ℕ) :
    ∀ u : String, VAct.fetchBinary u ∉ pollPattern n := by
  induction n with
  | zero =>
    intro u h
    simp [pollPattern] at h
  | succ k ih =>
    intro u h
    rcases List.mem_cons.mp h with h1 | h2
    · exact VAct.noConfusion h1
    · rcases List.mem_cons.mp h2 with h3 | h4
      · exact VAct.noConfusion h3
      · exact ih u h4

/-- Claim C9: every completed run of `generateVideo` consists of poll
iterations each waiting exactly 5000 ms (5 seconds), repeated until the
operation's `done` flag is set, and the binary result is fetched only after
that, as the final action, from the completed operation's URI. -/
theorem generateVideo_polls_until_done (op0 : VideoOp) (polls : List VideoOp)
    (tr : List VAct) (r : Except String String)
    (h : generateVideoRun op0 polls = some (tr, r)) :
    ∃ n final, pollActs op0 polls = some (pollPattern n, final) ∧
      final.done = true ∧
      ∀ u, VAct.fetchBinary u ∈ tr → tr = pollPattern n ++ [VAct.fetchBinary u] := by
  unfold generateVideoRun at h
  rw [Option.map_eq_some'] at h
  obtain ⟨p, hp, hpr⟩ := h
  obtain ⟨acts, final⟩ := p
  obtain ⟨hdone, n, hn⟩ := pollActs_shape polls op0 acts final hp
  subst hn
  have htr : tr = pollPattern n ++ fetchActs final.link :=
    (congrArg Prod.fst hpr).symm
  refine ⟨n, final, hp, hdone, ?_⟩
  intro u hu
  rw [htr] at hu ⊢
  rcases List.mem_append.mp hu with hmem | hmem
  · exact absurd hmem (pollPattern_no_fetch n u)
  · cases hl : final.link with
    | none =>
      rw [hl] at hmem
      simp [fetchActs] at hmem
    | some s =>
      rw [hl] at hmem
      by_cases hs : s = ""
      · rw [show fetchActs (some s) = [] from by simp [fetchActs, hs]] at hmem
        simp at hmem
      · rw [show fetchActs (some s) = [VAct.fetchBinary s] from by
          simp [fetchActs, hs]] at hmem ⊢
        have hus : VAct.fetchBinary u = VAct.fetchBinary s :=
          List.mem_singleton.mp hmem
        have hueq : u = s := by injection hus
        rw [hueq]

/-- Witness for C9: one not-yet-done snapshot followed by a done snapshot
with a URI. -/
theorem generateVideo_polls_until_done_witness :
    ∃ n final,
      pollActs ⟨false, none⟩ [⟨true, some "u"⟩] = some (pollPattern n, final) ∧
      final.done = true ∧
      ∀ s, VAct.fetchBinary s ∈
          [VAct.wait 5000, VAct.pollOp, VAct.fetchBinary "u"] →
        [VAct.wait 5000, VAct.pollOp, VAct.fetchBinary "u"]
          = pollPattern n ++ [VAct.fetchBinary s] :=
  generateVideo_polls_until_done ⟨false, none⟩ [⟨true, some "u"⟩]
    [VAct.wait 5000, VAct.pollOp, VAct.fetchBinary "u"]
    (Except.ok (createObjectURL "u")) rfl

/-- Claim C10 is refuted as stated: when the completed operation carries the
empty string as its video URI, a URI is present in the response (the value
is not `none`), yet `generateVideo` throws "Video generation failed",
because the source tests JavaScript falsiness (`!downloadLink`), not
absence. -/
theorem video_empty_uri_throws :
    finishVideo (some "") = Except.error "Video generation failed" ∧
      (some "" : Option String) ≠ (none : Option String) :=
  ⟨rfl, fun h => Option.noConfusion h⟩

/-- Claim C10 (amended): once the polled operation completes,
`generateVideo` throws "Video generation failed" if and only if the
generated-video URI is absent or is the empty string; when a non-empty URI
is present it returns an object URL for the fetched bytes and does not
throw. -/
theorem finishVideo_error_iff (link : Option String) :
    (finishVideo link = Except.error "Video generation failed" ↔
      link = none ∨ link = some "") ∧
    ∀ s, link = some s → s ≠ "" →
      finishVideo link = Except.ok (createObjectURL s) := by
  constructor
  · constructor
    · intro h
      cases link with
      | none => exact Or.inl rfl
      | some s =>
        by_cases hs : s = ""
        · exact Or.inr (by rw [hs])
        · exfalso
          have hfal : linkFalsy (some s) = false := by
            simp [linkFalsy, hs]
          rw [finishVideo, hfal] at h
          simp at h
    · intro h
      rcases h with h | h
      · rw [h]; rfl
      · rw [h]; rfl
  · intro s hs hne
    rw [hs, finishVideo]
    have hfal : linkFalsy (some s) = false := by
      simp [linkFalsy, hne]
    rw [hfal]
    rfl

/-- Witness for C10 (amended): a concrete non-empty URI yields an object
URL. -/
theorem finishVideo_error_iff_witness :
    finishVideo (some "ab") = Except.ok (createObjectURL "ab") :=
  (finishVideo_error_iff (some "ab")).2 "ab" rfl (by decide)

end VideoGen
